import Mathlib

/-!
Verification development for the okxx arbitrage-scoring system.

The repository has four source files:
* `src/src/ml_client.py` — Rust code: `MLClient` (WebSocket bridge client,
  lazy connect, lock-step request/response) and `MetalMLEngine` (predict with
  heuristic fallback `predict_fallback`).
* `src/src/ml_engine.py` — Python: `ArbitrageMLEngine` (feature extraction,
  train/predict/batch-predict over a torch network) and `MLWebSocketServer`.
* `src/ml/arbML.py` — Python: `ArbitrageML` (per-record preprocessing that
  reads the wall clock, an online-training buffer driven by `process_stream`).
* `src/ml-optimizer/model.py` — Python: `ArbitrageOptimizer`.

Real numbers (f64 / torch float32) are embedded as exact rationals `ℚ`;
the training path additionally tracks IEEE non-finite values with the
carrier `Fl` below, because one claim is about non-finite losses.
Learned weights and the optimizer step are kept abstract (a type `W`
with a forward function and a step function): every claim here is about
control flow, data flow and the pure arithmetic around the network, not
about the values the network computes.
-/

/-- Embedding of Rust `f64::max` on non-NaN inputs (`a.max(b)`). -/
def fmax (a b : ℚ) : ℚ := if a ≤ b then b else a

/-- Embedding of Rust `f64::min` on non-NaN inputs (`a.min(b)`). -/
def fmin (a b : ℚ) : ℚ := if a ≤ b then a else b

/-- The chain enumeration matched by `predict_fallback`
(`src/src/ml_client.py`, lines 268-272). -/
inductive Chain where
  | Ethereum
  | BinanceSmartChain
  | Polygon
  | Arbitrum
  | Optimism
  | Avalanche
  | Fantom
  | Solana
  | Base
  | Other
deriving DecidableEq

/-- The fields of `ArbitrageOpportunity` that `MetalMLEngine::predict_fallback`
and `MLClient::convert_opportunity` read (`src/src/ml_client.py`). -/
structure ArbitrageOpportunity where
  initial_amount : ℚ
  roi_percentage : ℚ
  total_gas_cost : ℚ
  flash_loan_fee : ℚ
  profit_usd : ℚ
  path_len : ℕ
  chain : Chain
  execution_time_ms : ℕ
deriving DecidableEq

/-- Per-chain additive bonus from `predict_fallback`
(`src/src/ml_client.py`, lines 268-272): Polygon and Arbitrum get 10.0,
Ethereum 5.0, everything else 7.0. -/
def chainBonus : Chain → ℚ
  | Chain.Polygon => 10
  | Chain.Arbitrum => 10
  | Chain.Ethereum => 5
  | _ => 7

/-- Embedding of `MetalMLEngine::predict_fallback`
(`src/src/ml_client.py`, lines 252-275):
`score = roi * 0.3`; `gas_ratio = total_gas_cost / profit_usd.max(1.0)`;
`score += (1.0 - gas_ratio.min(1.0)) * 20.0`;
`score += (5.0 - path.len()).max(0.0) * 5.0`; plus the chain bonus;
finally `score.max(0.0).min(100.0)`. -/
def predict_fallback (o : ArbitrageOpportunity) : ℚ :=
  let score : ℚ := 0
  let score := score + o.roi_percentage * (3 / 10)
  let gasOverProfit := o.total_gas_cost / fmax o.profit_usd 1
  let score := score + (1 - fmin gasOverProfit 1) * 20
  let score := score + fmax (5 - (o.path_len : ℚ)) 0 * 5
  let score := score + chainBonus o.chain
  fmin (fmax score 0) 100

/-- Behaviour of the WebSocket stream on the next request/response exchange:
the server answers with a JSON object carrying an optional `score`, the
send fails, the reply fails to deserialize, the reply is a non-text frame,
or the stream has ended. -/
inductive WireOutcome where
  | good (score : Option ℚ)
  | sendFail
  | malformed
  | nonText
  | streamEnd
deriving DecidableEq

/-- The only field of `MLResponse` that `MLClient::predict` reads. -/
structure MLResponseModel where
  score : Option ℚ
deriving DecidableEq

/-- One send-then-receive exchange on an open stream, following the body of
`MLClient::send_request` (`src/src/ml_client.py`, lines 156-173): a text
reply parses into a response, a failed send or a deserialization failure
returns the transport error, a non-text frame returns
"Unexpected message type", and an ended stream falls through to
"No connection available". -/
def exchange : WireOutcome → Except String MLResponseModel
  | WireOutcome.good s => Except.ok ⟨s⟩
  | WireOutcome.sendFail => Except.error "send failed"
  | WireOutcome.malformed => Except.error "invalid ML response JSON"
  | WireOutcome.nonText => Except.error "Unexpected message type"
  | WireOutcome.streamEnd => Except.error "No connection available"

/-- The `MLClient` state: the `connection: Arc<RwLock<Option<WebSocketStream>>>`
field, `none` until a successful `connect`.  A stored connection carries the
behaviour its next use will exhibit. -/
structure MLClientState where
  connection : Option WireOutcome
deriving DecidableEq

/-- Embedding of `MLClient::send_request` (`src/src/ml_client.py`,
lines 147-174).  `connectResult` models the outcome of `connect` were it
attempted now (`none` = handshake fails, `some w` = a fresh stream that will
behave as `w`).  Faithful control flow: connect is attempted only when no
connection is stored; every error path returns early via `?` and no path
ever writes `None` back into `connection`. -/
def send_request (connectResult : Option WireOutcome) (s : MLClientState) :
    Except String MLResponseModel × MLClientState :=
  match s.connection with
  | none =>
    match connectResult with
    | none => (Except.error "connect failed", s)
    | some w => (exchange w, { connection := some w })
  | some w => (exchange w, s)

/-- Embedding of `MLClient::predict` (`src/src/ml_client.py`, lines 78-91):
build a predict request, `send_request`, and return
`response.score.unwrap_or(0.0)`.  The request payload (the converted
opportunity) does not influence the modelled wire behaviour. -/
def MLClient.predict (connectResult : Option WireOutcome) (s : MLClientState)
    (_o : ArbitrageOpportunity) : Except String ℚ × MLClientState :=
  match send_request connectResult s with
  | (Except.ok resp, s2) => (Except.ok (resp.score.getD 0), s2)
  | (Except.error e, s2) => (Except.error e, s2)

/-- Embedding of `MetalMLEngine::predict` (`src/src/ml_client.py`,
lines 235-244): try the bridge client, and on any error return
`predict_fallback` for this call. -/
def MetalMLEngine.predict (connectResult : Option WireOutcome)
    (s : MLClientState) (o : ArbitrageOpportunity) : ℚ × MLClientState :=
  match MLClient.predict connectResult s o with
  | (Except.ok score, s2) => (score, s2)
  | (Except.error _, s2) => (predict_fallback o, s2)

/-- The scenario record of §8 of the spec: initial amount 5000, ROI 2.5 %,
gas cost 50, two-hop path, chain Polygon; its realized profit is
5000 · 0.025 = 125 USD, which is what `predict_fallback` divides the gas
cost by (`profit_usd.max(1.0)`). -/
def opp_C2 : ArbitrageOpportunity :=
  { initial_amount := 5000
    roi_percentage := 5 / 2
    total_gas_cost := 50
    flash_loan_fee := 0
    profit_usd := 125
    path_len := 2
    chain := Chain.Polygon
    execution_time_ms := 0 }

/-- A client whose stored, previously established connection fails on use. -/
def brokenClient : MLClientState := ⟨some WireOutcome.sendFail⟩

/-- A healthy fresh stream, as `connect` would produce while the server is
reachable. -/
def freshGoodWire : Option WireOutcome := some (WireOutcome.good (some 1))

theorem clamp_0_100_mem (a : ℚ) :
    0 ≤ fmin (fmax a 0) 100 ∧ fmin (fmax a 0) 100 ≤ 100 := by
  unfold fmin fmax
  split_ifs <;> constructor <;> linarith

/-- The final clamp of `predict_fallback` lands in `[0, 100]`. -/
theorem predict_fallback_mem_range (o : ArbitrageOpportunity) :
    0 ≤ predict_fallback o ∧ predict_fallback o ≤ 100 := by
  simp only [predict_fallback]
  exact clamp_0_100_mem _

/-- C1: whenever the remote predict call fails for any reason (connect
failure, send failure, malformed reply, non-text frame, ended stream),
`MetalMLEngine::predict` returns the local heuristic score
`predict_fallback o`, which lies in `[0, 100]`; the error is never
propagated to the caller, whose result type is a plain number. -/
theorem engine_predict_falls_back (connectResult : Option WireOutcome)
    (s : MLClientState) (o : ArbitrageOpportunity) (e : String)
    (h : (MLClient.predict connectResult s o).1 = Except.error e) :
    (MetalMLEngine.predict connectResult s o).1 = predict_fallback o ∧
      0 ≤ (MetalMLEngine.predict connectResult s o).1 ∧
      (MetalMLEngine.predict connectResult s o).1 ≤ 100 := by
  have hfb : (MetalMLEngine.predict connectResult s o).1 = predict_fallback o := by
    unfold MetalMLEngine.predict
    rcases hp : MLClient.predict connectResult s o with ⟨r, s2⟩
    rcases r with r | r
    · simp [hp]
    · rw [hp] at h; simp at h
  refine ⟨hfb, ?_, ?_⟩
  · rw [hfb]; exact (predict_fallback_mem_range o).1
  · rw [hfb]; exact (predict_fallback_mem_range o).2

/-- Witness for `engine_predict_falls_back`: a disconnected client and an
unreachable server (connect fails). -/
theorem engine_predict_falls_back_witness :
    (MetalMLEngine.predict none ⟨none⟩ opp_C2).1 = predict_fallback opp_C2 ∧
      0 ≤ (MetalMLEngine.predict none ⟨none⟩ opp_C2).1 ∧
      (MetalMLEngine.predict none ⟨none⟩ opp_C2).1 ≤ 100 :=
  engine_predict_falls_back none ⟨none⟩ opp_C2 "connect failed" rfl

theorem predict_fallback_opp_C2_val : predict_fallback opp_C2 = 151 / 4 := by
  norm_num [predict_fallback, opp_C2, fmin, fmax, chainBonus]

theorem claim_formula_val :
    (5 / 2 : ℚ) * (3 / 10) + (1 - fmin (50 / (5000 * (25 / 1000))) 1) * 20 +
      fmax ((5 : ℚ) - 2) 0 * 5 + 10 = 151 / 4 := by
  norm_num [fmin, fmax]

/-- C2, counterexample: on the §8 scenario record the fallback score is the
claimed formula value `2.5·0.3 + (1 − min(50/(5000·0.025), 1))·20 +
max(5−2, 0)·5 + 10`, but that value is `151/4 = 37.75`, not the `45.35` the
spec asserts (the spec's arithmetic `19.6` for the gas term is wrong:
`(1 − min(50/125, 1))·20 = 12`). -/
theorem heuristic_score_cex :
    predict_fallback opp_C2 =
      (5 / 2) * (3 / 10) + (1 - fmin (50 / (5000 * (25 / 1000))) 1) * 20 +
        fmax ((5 : ℚ) - 2) 0 * 5 + 10 ∧
      predict_fallback opp_C2 ≠ 4535 / 100 := by
  constructor
  · exact predict_fallback_opp_C2_val.trans claim_formula_val.symm
  · rw [predict_fallback_opp_C2_val]; norm_num

/-- C2, amended: with the server down (connect fails, no stored connection),
`MetalMLEngine::predict` returns the heuristic score, which equals the
claimed formula and evaluates to `151/4 = 37.75`, inside `[0, 100]`. -/
theorem heuristic_score_amended :
    (MetalMLEngine.predict none ⟨none⟩ opp_C2).1 =
      (5 / 2) * (3 / 10) + (1 - fmin (50 / (5000 * (25 / 1000))) 1) * 20 +
        fmax ((5 : ℚ) - 2) 0 * 5 + 10 ∧
      (MetalMLEngine.predict none ⟨none⟩ opp_C2).1 = 151 / 4 ∧
      0 ≤ (151 / 4 : ℚ) ∧ (151 / 4 : ℚ) ≤ 100 := by
  have h : (MetalMLEngine.predict none ⟨none⟩ opp_C2).1 = predict_fallback opp_C2 := rfl
  refine ⟨?_, ?_, by norm_num, by norm_num⟩
  · rw [h, predict_fallback_opp_C2_val, claim_formula_val]
  · rw [h, predict_fallback_opp_C2_val]

/-- C4, counterexample: a client holding an established connection whose send
fails.  The call errors, but the stored connection is NOT cleared (it is
still the same broken stream, not `none`), and the next call — even with the
server reachable — reuses the broken stream and fails again instead of
reconnecting. -/
theorem connection_not_cleared_cex :
    (send_request freshGoodWire brokenClient).1 = Except.error "send failed" ∧
      (send_request freshGoodWire brokenClient).2.connection =
        some WireOutcome.sendFail ∧
      (send_request freshGoodWire
          (send_request freshGoodWire brokenClient).2).1 =
        Except.error "send failed" := by
  refine ⟨rfl, rfl, rfl⟩

/-- C4, amended: when a send or receive on the established connection fails
or the response is malformed, the error is returned to the caller (and
`MetalMLEngine::predict` falls back for that call), but the client state is
left untouched: `send_request` never clears `connection`, and it attempts a
connect only when no connection is stored, so subsequent calls reuse the
same stored stream rather than reconnecting. -/
theorem established_connection_kept (connectResult : Option WireOutcome)
    (s : MLClientState) (w : WireOutcome) (h : s.connection = some w) :
    send_request connectResult s = (exchange w, s) := by
  unfold send_request
  rw [h]

/-- Witness for `established_connection_kept`: the broken client above. -/
theorem established_connection_kept_witness :
    send_request freshGoodWire brokenClient =
      (exchange WireOutcome.sendFail, brokenClient) :=
  established_connection_kept freshGoodWire brokenClient WireOutcome.sendFail rfl

/-- The opportunity dictionary consumed by
`ArbitrageMLEngine.extract_features` (`src/src/ml_engine.py`,
lines 105-122): every field is optional, `opportunity.get(key, default)`
supplies the per-field default. -/
structure OpportunityDict where
  initial_amount : Option ℚ := none
  roi_percentage : Option ℚ := none
  path_length : Option ℚ := none
  gas_cost : Option ℚ := none
  flash_loan_fee : Option ℚ := none
  hour : Option ℚ := none
  day_of_week : Option ℚ := none
  chain_id : Option ℚ := none
  execution_time : Option ℚ := none
  volume_ratio : Option ℚ := none
  price_spread : Option ℚ := none
  liquidity_depth : Option ℚ := none
deriving DecidableEq

/-- Embedding of `ArbitrageMLEngine.extract_features`
(`src/src/ml_engine.py`, lines 105-122): the twelve normalized features, in
the source's order, each `opportunity.get(field, default) / scale`
(for `volume_ratio` the scale is 1 — the source applies no division). -/
def extract_features (o : OpportunityDict) : List ℚ :=
  [ o.initial_amount.getD 0 / 10000,
    o.roi_percentage.getD 0 / 100,
    o.path_length.getD 1 / 5,
    o.gas_cost.getD 0 / 1000,
    o.flash_loan_fee.getD 0 / 100,
    o.hour.getD 0 / 24,
    o.day_of_week.getD 0 / 7,
    o.chain_id.getD 1 / 10,
    o.execution_time.getD 0 / 1000,
    o.volume_ratio.getD 1,
    o.price_spread.getD 0 / 10,
    o.liquidity_depth.getD 0 / 1000000 ]

/-- C6: `extract_features` is total (every `OpportunityDict`, any subset of
fields absent, is accepted — totality is inherent in the type), returns
exactly 12 numbers in the contract order — amount, ROI %, path length, gas
cost, flash-loan fee, hour, day of week, chain id, execution time, volume
ratio, price spread, liquidity depth — each equal to the field's value (or
its per-field default when absent) divided by the field's fixed scale
constant. -/
theorem extract_features_contract (o : OpportunityDict) :
    (extract_features o).length = 12 ∧
    extract_features o =
      [ o.initial_amount.getD 0 / 10000,
        o.roi_percentage.getD 0 / 100,
        o.path_length.getD 1 / 5,
        o.gas_cost.getD 0 / 1000,
        o.flash_loan_fee.getD 0 / 100,
        o.hour.getD 0 / 24,
        o.day_of_week.getD 0 / 7,
        o.chain_id.getD 1 / 10,
        o.execution_time.getD 0 / 1000,
        o.volume_ratio.getD 1 / 1,
        o.price_spread.getD 0 / 10,
        o.liquidity_depth.getD 0 / 1000000 ] := by
  refine ⟨rfl, ?_⟩
  simp [extract_features]

/-- Result of `tensor.squeeze().tolist()` in Python: a bare number when all
tensor dimensions were 1, otherwise a list of numbers. -/
inductive PyVal where
  | num : ℚ → PyVal
  | list : List ℚ → PyVal
deriving DecidableEq

/-- Embedding of `ArbitrageMLEngine.predict` (`src/src/ml_engine.py`,
lines 151-161): eval-mode forward pass of the network on the extracted
features, then `.item()`.  The network in eval mode (dropout off,
batch-norm on running statistics) is a pure per-example function, kept
abstract as `net`. -/
def ArbitrageMLEngine.predict (net : List ℚ → ℚ) (o : OpportunityDict) : ℚ :=
  net (extract_features o)

/-- `predictions.squeeze().tolist()` on a column tensor of shape `(n, 1)`:
for `n = 1` squeeze drops every dimension and `tolist` yields a bare
number; otherwise it yields the list of the `n` entries. -/
def squeezeToList : List ℚ → PyVal
  | [x] => PyVal.num x
  | xs => PyVal.list xs

/-- Embedding of `ArbitrageMLEngine.batch_predict` (`src/src/ml_engine.py`,
lines 163-176): empty input short-circuits to `[]`; otherwise the stacked
eval-mode forward pass is row-wise `net` (batch-norm in eval mode uses
running statistics, so rows do not interact), followed by
`squeeze().tolist()`. -/
def ArbitrageMLEngine.batch_predict (net : List ℚ → ℚ)
    (opportunities : List OpportunityDict) : PyVal :=
  if opportunities.isEmpty then PyVal.list []
  else squeezeToList (opportunities.map (fun o => ArbitrageMLEngine.predict net o))

/-- An opportunity dictionary with every field absent. -/
def oppEmpty : OpportunityDict := {}

/-- A concrete eval-mode network for closed evaluations: the sum of the
(normalized) features. -/
def netSum : List ℚ → ℚ := fun v => v.sum

/-- C3, failing input: `batch_predict` on a one-element list returns the bare
number `predict` would return — `squeeze()` collapses the batch dimension of
the `(1, 1)` prediction tensor, so `tolist()` yields a scalar — and not the
one-element list `[predict o]` that the claim (and the function's own
`-> List[float]` return annotation) requires.  On a two-element list the
element-wise correspondence does hold. -/
theorem batch_predict_singleton_scalar :
    ArbitrageMLEngine.batch_predict netSum [oppEmpty] =
      PyVal.num (ArbitrageMLEngine.predict netSum oppEmpty) ∧
    ArbitrageMLEngine.batch_predict netSum [oppEmpty] ≠
      PyVal.list [ArbitrageMLEngine.predict netSum oppEmpty] ∧
    ArbitrageMLEngine.batch_predict netSum [oppEmpty, oppEmpty] =
      PyVal.list [ArbitrageMLEngine.predict netSum oppEmpty,
                  ArbitrageMLEngine.predict netSum oppEmpty] := by
  refine ⟨rfl, ?_, rfl⟩
  intro h
  exact PyVal.noConfusion h

/-- IEEE-style value carrier for the training path: exact rationals plus the
two infinities and NaN.  `torch` float arithmetic on the loss pipeline is
modelled with the usual IEEE rules on these constructors. -/
inductive Fl where
  | num : ℚ → Fl
  | inf : Fl
  | ninf : Fl
  | nan : Fl
deriving DecidableEq

def Fl.isFinite : Fl → Bool
  | Fl.num _ => true
  | _ => false

def Fl.neg : Fl → Fl
  | Fl.num q => Fl.num (-q)
  | Fl.inf => Fl.ninf
  | Fl.ninf => Fl.inf
  | Fl.nan => Fl.nan

def Fl.add : Fl → Fl → Fl
  | Fl.nan, _ => Fl.nan
  | _, Fl.nan => Fl.nan
  | Fl.inf, Fl.ninf => Fl.nan
  | Fl.ninf, Fl.inf => Fl.nan
  | Fl.inf, _ => Fl.inf
  | _, Fl.inf => Fl.inf
  | Fl.ninf, _ => Fl.ninf
  | _, Fl.ninf => Fl.ninf
  | Fl.num a, Fl.num b => Fl.num (a + b)

def Fl.sub (a b : Fl) : Fl := a.add b.neg

/-- IEEE square: finite squares stay finite, both infinities square to `+∞`,
NaN propagates. -/
def Fl.sq : Fl → Fl
  | Fl.num q => Fl.num (q * q)
  | Fl.inf => Fl.inf
  | Fl.ninf => Fl.inf
  | Fl.nan => Fl.nan

/-- Division of an IEEE value by a positive natural (the batch size). -/
def Fl.divNat : Fl → ℕ → Fl
  | Fl.num q, n => Fl.num (q / n)
  | Fl.inf, _ => Fl.inf
  | Fl.ninf, _ => Fl.ninf
  | Fl.nan, _ => Fl.nan

/-- `F.mse_loss(predictions, batch_targets)` with the default mean
reduction: the mean of the squared differences. -/
def mseLoss (preds targets : List Fl) : Fl :=
  let sqDiffs := (preds.zip targets).map (fun p => (Fl.sub p.1 p.2).sq)
  (sqDiffs.foldl Fl.add (Fl.num 0)).divNat sqDiffs.length

/-- The state owned by `ArbitrageMLEngine` (`src/src/ml_engine.py`,
lines 90-103) as far as `train_batch` mutates it: the network weights
(abstract carrier `W`), the scheduler's step count, and the growing loss
history.  The AdamW internals travel inside `W`. -/
structure ModelState (W : Type) where
  weights : W
  sched_steps : ℕ
  loss_history : List Fl
deriving DecidableEq

/-- Embedding of `ArbitrageMLEngine.train_batch` (`src/src/ml_engine.py`,
lines 124-149), faithful to its control flow: `torch.stack` on an empty
list of feature tensors raises `RuntimeError("stack expects a non-empty
TensorList")`; otherwise the forward pass (training-mode network `fwd`,
abstract), the MSE loss, and then — with no check of any kind on the loss —
`backward`, gradient clipping and the `AdamW` step (together abstracted as
`optStep`, a function of the current weights and the loss tensor), the
scheduler step, and the append of `loss.item()` to `loss_history`. -/
def ArbitrageMLEngine.train_batch {W : Type} (fwd : W → List ℚ → Fl)
    (optStep : W → Fl → W) (s : ModelState W)
    (opportunities : List OpportunityDict) (targets : List Fl) :
    Except String (ModelState W × Fl) :=
  if opportunities.isEmpty then
    Except.error "stack expects a non-empty TensorList"
  else
    let preds := opportunities.map (fun o => fwd s.weights (extract_features o))
    let loss := mseLoss preds targets
    Except.ok ({ weights := optStep s.weights loss,
                 sched_steps := s.sched_steps + 1,
                 loss_history := s.loss_history ++ [loss] }, loss)

/-- A trivial weight carrier for closed evaluations. -/
def fwd0 : Unit → List ℚ → Fl := fun _ _ => Fl.num 0

def optStep0 : Unit → Fl → Unit := fun _ _ => ()

/-- A fresh model state over the trivial carrier. -/
def s0 : ModelState Unit := ⟨(), 0, []⟩

/-- C7, counterexample: on an empty batch `train_batch` raises — the
`torch.stack` call rejects an empty tensor list before anything else runs —
rather than returning a defined no-op or `InvalidArgument` signal: the call
is the raised exception, not any `Except.ok` result. -/
theorem train_empty_batch_cex :
    ArbitrageMLEngine.train_batch fwd0 optStep0 s0 [] [] =
      Except.error "stack expects a non-empty TensorList" := rfl

/-- C7, amended: calling `train_batch` with an empty batch raises an
exception (`torch.stack` on the empty list) before any parameter update, so
`ModelState` is untouched (no updated state is ever produced — the error
carries none); the exception propagates to the caller instead of a defined
no-op or `InvalidArgument` signal. -/
theorem train_empty_batch_raises {W : Type} (fwd : W → List ℚ → Fl)
    (optStep : W → Fl → W) (s : ModelState W) (targets : List Fl) :
    ArbitrageMLEngine.train_batch fwd optStep s [] targets =
      Except.error "stack expects a non-empty TensorList" ∧
    ∀ r : ModelState W × Fl,
      ArbitrageMLEngine.train_batch fwd optStep s [] targets ≠ Except.ok r := by
  refine ⟨rfl, ?_⟩
  intro r h
  exact Except.noConfusion (h.symm.trans rfl)

/-- C8, counterexample: a batch whose target is NaN makes the MSE loss NaN,
yet `train_batch` still applies the optimizer step, advances the scheduler
and appends the non-finite loss to the history: the call succeeds with a
changed `ModelState` instead of rejecting the batch before the update. -/
theorem non_finite_loss_applied_cex :
    ArbitrageMLEngine.train_batch fwd0 optStep0 s0 [oppEmpty] [Fl.nan] =
      Except.ok (⟨(), 1, [Fl.nan]⟩, Fl.nan) ∧
    Fl.isFinite Fl.nan = false ∧
    (⟨(), 1, [Fl.nan]⟩ : ModelState Unit) ≠ s0 := by
  refine ⟨rfl, rfl, ?_⟩
  intro h
  exact absurd (congrArg ModelState.sched_steps h) (by decide)

/-- C8, amended: `train_batch` contains no finiteness check: whenever the
batch is non-empty, even when the computed MSE loss is non-finite, it
returns `Except.ok` with the optimizer step applied, the scheduler advanced
and the (non-finite) loss appended to the history — a state different from
the input state — rather than rejecting the batch before the update. -/
theorem train_batch_applies_non_finite_loss {W : Type} (fwd : W → List ℚ → Fl)
    (optStep : W → Fl → W) (s : ModelState W)
    (opportunities : List OpportunityDict) (targets : List Fl)
    (hne : opportunities ≠ [])
    (hnf : Fl.isFinite (mseLoss
        (opportunities.map (fun o => fwd s.weights (extract_features o)))
        targets) = false) :
    ∃ s2 : ModelState W,
      ArbitrageMLEngine.train_batch fwd optStep s opportunities targets =
        Except.ok (s2, mseLoss
          (opportunities.map (fun o => fwd s.weights (extract_features o)))
          targets) ∧
      s2.sched_steps = s.sched_steps + 1 ∧
      s2.loss_history = s.loss_history ++ [mseLoss
        (opportunities.map (fun o => fwd s.weights (extract_features o)))
        targets] ∧
      s2 ≠ s := by
  set loss := mseLoss
    (opportunities.map (fun o => fwd s.weights (extract_features o))) targets with hloss
  refine ⟨{ weights := optStep s.weights loss, sched_steps := s.sched_steps + 1,
            loss_history := s.loss_history ++ [loss] }, ?_, rfl, rfl, ?_⟩
  · unfold ArbitrageMLEngine.train_batch
    rw [if_neg (by simpa [List.isEmpty_iff] using hne)]
  · intro h
    have := congrArg ModelState.sched_steps h
    simp at this

/-- Witness for `train_batch_applies_non_finite_loss`: the one-record batch
with NaN target over the trivial carrier. -/
theorem train_batch_applies_non_finite_loss_witness :
    ∃ s2 : ModelState Unit,
      ArbitrageMLEngine.train_batch fwd0 optStep0 s0 [oppEmpty] [Fl.nan] =
        Except.ok (s2, mseLoss
          ([oppEmpty].map (fun o => fwd0 s0.weights (extract_features o)))
          [Fl.nan]) ∧
      s2.sched_steps = s0.sched_steps + 1 ∧
      s2.loss_history = s0.loss_history ++ [mseLoss
        ([oppEmpty].map (fun o => fwd0 s0.weights (extract_features o)))
        [Fl.nan]] ∧
      s2 ≠ s0 :=
  train_batch_applies_non_finite_loss fwd0 optStep0 s0 [oppEmpty] [Fl.nan]
    (by simp) rfl

/-- A parsed request arriving at `MLWebSocketServer.handle_client`
(`src/src/ml_engine.py`, lines 232-297), keyed by `data['type']`;
`badJson` stands for a frame on which `json.loads` (or the `data['type']`
lookup) raises. -/
inductive WsMsg where
  | train (opportunities : List OpportunityDict) (targets : List Fl)
  | predictReq (o : OpportunityDict)
  | batchPredictReq (os : List OpportunityDict)
  | featureImportanceReq
  | unknown (t : String)
  | badJson
deriving DecidableEq

/-- The responses `handle_client` sends back, one JSON object each. -/
inductive WsResp where
  | train_result (loss : Fl)
  | prediction (score : ℚ) (confidence : ℚ)
  | batch_prediction (scores : PyVal)
  | feature_importance
  | error (message : String)
deriving DecidableEq

/-- One iteration of the `async for` body of `handle_client`: dispatch on
`data['type']`, producing either an updated engine state plus the response
to send, or the exception that escapes the loop body.  Unknown types do NOT
raise — they produce an `error`-typed response and the loop continues.
`confidence` for a predict is `min(abs(score) / 100, 1.0)`. -/
def handleMessage {W : Type} (net : W → List ℚ → ℚ) (fwd : W → List ℚ → Fl)
    (optStep : W → Fl → W) (s : ModelState W) :
    WsMsg → Except String (ModelState W × WsResp)
  | WsMsg.train opportunities targets =>
    match ArbitrageMLEngine.train_batch fwd optStep s opportunities targets with
    | Except.ok (s2, loss) => Except.ok (s2, WsResp.train_result loss)
    | Except.error e => Except.error e
  | WsMsg.predictReq o =>
    let score := ArbitrageMLEngine.predict (net s.weights) o
    Except.ok (s, WsResp.prediction score (fmin (|score| / 100) 1))
  | WsMsg.batchPredictReq os =>
    Except.ok (s, WsResp.batch_prediction
      (ArbitrageMLEngine.batch_predict (net s.weights) os))
  | WsMsg.featureImportanceReq => Except.ok (s, WsResp.feature_importance)
  | WsMsg.unknown t => Except.ok (s, WsResp.error ("Unknown request type: " ++ t))
  | WsMsg.badJson => Except.error "invalid JSON"

/-- Embedding of `MLWebSocketServer.handle_client` (`src/src/ml_engine.py`,
lines 232-297) over the messages one client sends on its channel.  The
`try` wraps the whole `async for` loop, so a message whose handling raises
makes the handler send exactly one `error` response from the `except`
block and then RETURN — remaining messages of that client are never read.
Successful messages each get exactly one response and the loop continues. -/
def handle_client {W : Type} (net : W → List ℚ → ℚ) (fwd : W → List ℚ → Fl)
    (optStep : W → Fl → W) :
    ModelState W → List WsMsg → ModelState W × List WsResp
  | s, [] => (s, [])
  | s, m :: rest =>
    match handleMessage net fwd optStep s m with
    | Except.ok (s2, r) =>
      let next := handle_client net fwd optStep s2 rest
      (next.1, r :: next.2)
    | Except.error e => (s, [WsResp.error e])

/-- A concrete eval-mode network over the trivial weight carrier. -/
def net0 : Unit → List ℚ → ℚ := fun _ _ => 0

/-- C10, counterexample: a client sends two requests — a `train` with an
empty batch (whose handling raises inside the loop), then a well-formed
`predict`.  The server sends exactly one response in total, the error for
the first request; the channel is terminated and the second request is
never answered, contradicting one-response-per-request. -/
theorem handle_client_terminates_channel_cex :
    (handle_client net0 fwd0 optStep0 s0
        [WsMsg.train [] [], WsMsg.predictReq oppEmpty]).2 =
      [WsResp.error "stack expects a non-empty TensorList"] ∧
    ((handle_client net0 fwd0 optStep0 s0
        [WsMsg.train [] [], WsMsg.predictReq oppEmpty]).2).length = 1 ∧
    [WsMsg.train [] [], WsMsg.predictReq oppEmpty].length = 2 := by
  refine ⟨rfl, rfl, rfl⟩

theorem handle_client_spec {W : Type} (net : W → List ℚ → ℚ)
    (fwd : W → List ℚ → Fl) (optStep : W → Fl → W) (s : ModelState W)
    (msgs : List WsMsg) :
    ((handle_client net fwd optStep s msgs).2).length ≤ msgs.length ∧
    (msgs ≠ [] → (handle_client net fwd optStep s msgs).2 ≠ []) ∧
    (((handle_client net fwd optStep s msgs).2).length < msgs.length →
      ∃ e, ((handle_client net fwd optStep s msgs).2).getLast? =
        some (WsResp.error e)) := by
  induction msgs generalizing s with
  | nil => exact ⟨Nat.le_refl _, fun h => absurd rfl h, fun h => absurd h (by simp)⟩
  | cons m rest ih =>
    simp only [handle_client]
    cases hm : handleMessage net fwd optStep s m with
    | ok p =>
      obtain ⟨hlen, hne, hlast⟩ := ih p.1
      refine ⟨by simpa using Nat.succ_le_succ hlen, fun _ => by simp, ?_⟩
      intro hlt
      have hlt2 : ((handle_client net fwd optStep p.1 rest).2).length <
          rest.length := by simpa using hlt
      obtain ⟨e, he⟩ := hlast hlt2
      have hrest : rest ≠ [] := by
        intro hr
        rw [hr] at hlt2
        simp at hlt2
      have hne2 : (handle_client net fwd optStep p.1 rest).2 ≠ [] := hne hrest
      refine ⟨e, ?_⟩
      rw [List.getLast?_cons, he]
      simp
    | error e =>
      refine ⟨by simp, fun _ => by simp, fun _ => ⟨e, by simp⟩⟩

/-- C10, amended: each request the server's loop reaches is answered by
exactly one response; when handling a request raises, the `except` block
sends one `error` response and the handler returns, terminating that
client's channel, so any remaining requests (witnessed by fewer responses
than requests) go unanswered — the last response sent is the error. -/
theorem handle_client_error_stops_loop {W : Type} (net : W → List ℚ → ℚ)
    (fwd : W → List ℚ → Fl) (optStep : W → Fl → W) (s : ModelState W)
    (msgs : List WsMsg)
    (h : ((handle_client net fwd optStep s msgs).2).length < msgs.length) :
    ∃ e, ((handle_client net fwd optStep s msgs).2).getLast? =
        some (WsResp.error e) ∧
      ((handle_client net fwd optStep s msgs).2).length ≤ msgs.length := by
  obtain ⟨hle, _, hlast⟩ := handle_client_spec net fwd optStep s msgs
  obtain ⟨e, he⟩ := hlast h
  exact ⟨e, he, hle⟩

/-- Witness for `handle_client_error_stops_loop`: the two-message channel of
the counterexample, where one response answers two requests. -/
theorem handle_client_error_stops_loop_witness :
    ∃ e, ((handle_client net0 fwd0 optStep0 s0
        [WsMsg.train [] [], WsMsg.predictReq oppEmpty]).2).getLast? =
      some (WsResp.error e) ∧
    ((handle_client net0 fwd0 optStep0 s0
        [WsMsg.train [] [], WsMsg.predictReq oppEmpty]).2).length ≤
      [WsMsg.train [] [], WsMsg.predictReq oppEmpty].length := by
  exact handle_client_error_stops_loop net0 fwd0 optStep0 s0
    [WsMsg.train [] [], WsMsg.predictReq oppEmpty] (by decide)

def charsStartWith : List Char → List Char → Bool
  | [], _ => true
  | _ :: _, [] => false
  | p :: ps, c :: cs => p == c && charsStartWith ps cs

/-- Python's `sub in s` on character lists. -/
def charsContain (pat : List Char) : List Char → Bool
  | [] => pat.isEmpty
  | c :: cs => charsStartWith pat (c :: cs) || charsContain pat cs

/-- Python `'uniswap' in s.lower()`. -/
def hasUniswap (s : String) : Bool :=
  charsContain "uniswap".toList s.toLower.toList

/-- The dictionary fields read by `ArbitrageML.preprocess_opportunity`
(`src/ml/arbML.py`, lines 55-69). -/
structure RawOpp where
  spread : Option ℚ := none
  grossProfit : Option ℚ := none
  flashLoanFee : Option ℚ := none
  gasCost : Option ℚ := none
  netProfit : Option ℚ := none
  chain : Option String := none
  dex1 : Option String := none
  dex2 : Option String := none
deriving DecidableEq

/-- Embedding of `ArbitrageML.preprocess_opportunity` (`src/ml/arbML.py`,
lines 55-69).  The last feature is `datetime.now().hour / 24` — the WALL
CLOCK at the moment of the call, not anything taken from the record — so
the hour is an explicit extra argument here. -/
def preprocess_opportunity (now_hour : ℚ) (o : RawOpp) : List ℚ :=
  [ o.spread.getD 0,
    o.grossProfit.getD 0,
    o.flashLoanFee.getD 0,
    o.gasCost.getD 0,
    o.netProfit.getD 0,
    if o.chain = some "ethereum" then 1 else 0,
    if o.chain = some "arbitrum" then 1 else 0,
    if hasUniswap (o.dex1.getD "") then 1 else 0,
    if hasUniswap (o.dex2.getD "") then 1 else 0,
    now_hour / 24 ]

/-- A record with every field absent. -/
def rawOpp0 : RawOpp := {}

/-- C5, counterexample: the same record encoded at wall-clock hour 9 and at
wall-clock hour 10 yields two different feature vectors, so the feature
encoding does not depend only on the fields of the record, and
`predict(encode(r))` is not reproducible across repeated calls that straddle
an hour boundary. -/
theorem preprocess_wall_clock_cex :
    preprocess_opportunity 9 rawOpp0 ≠ preprocess_opportunity 10 rawOpp0 := by
  intro h
  simp only [preprocess_opportunity, List.cons.injEq, and_true, true_and] at h
  norm_num at h

/-- C5, amended: `preprocess_opportunity` is a pure function of the record
AND the wall-clock hour at encoding time — two encodings of the same record
agree exactly when they are computed at the same `datetime.now().hour`
(the tenth feature is `now.hour / 24`, and the other nine depend only on
the record). -/
theorem preprocess_deterministic_given_hour (o : RawOpp) (h1 h2 : ℚ) :
    preprocess_opportunity h1 o = preprocess_opportunity h2 o ↔ h1 = h2 := by
  constructor
  · intro h
    simp only [preprocess_opportunity, List.cons.injEq, and_true, true_and] at h
    have h9 : h1 / 24 = h2 / 24 := by tauto
    field_simp at h9
    exact h9
  · intro h
    rw [h]

/-- Python `l[-n:]`: the trailing window of the last `n` elements. -/
def lastN (n : ℕ) (l : List α) : List α := l.drop (l.length - n)

/-- State carried across iterations of `ArbitrageML.process_stream`
(`src/ml/arbML.py`, lines 148-175): the `data_buffer` plus a count of how
many times `train_on_batch` actually trained (i.e. was called with at
least 10 examples — below 10 it returns immediately,
`src/ml/arbML.py`, lines 96-99). -/
structure StreamState (E : Type) where
  data_buffer : List E
  trainRuns : ℕ
deriving DecidableEq

/-- One iteration of the `process_stream` loop for one parsed line holding
`opportunities`: extend the buffer by `opportunities[:5]`; if the buffer has
reached 50, call `train_on_batch(data_buffer[-50:])` (which trains exactly
when its batch has at least 10 elements) and keep only the last 100. -/
def process_stream_step {E : Type} (s : StreamState E) (opportunities : List E) :
    StreamState E :=
  let buf := s.data_buffer ++ opportunities.take 5
  if 50 ≤ buf.length then
    { data_buffer := lastN 100 buf,
      trainRuns := s.trainRuns + (if 10 ≤ (lastN 50 buf).length then 1 else 0) }
  else
    { data_buffer := buf, trainRuns := s.trainRuns }

/-- `ArbitrageML.process_stream` over a whole stdin stream of parsed lines. -/
def process_stream {E : Type} (s : StreamState E) (lines : List (List E)) :
    StreamState E :=
  lines.foldl process_stream_step s

/-- The initial state: `self.data_buffer = []`, no training yet. -/
def streamInit {E : Type} : StreamState E := ⟨[], 0⟩

/-- C9, counterexample: starting from the empty buffer and appending
examples one at a time (one per stream line), after the 10th example ZERO
training calls have run — not exactly one.  The `process_stream` trigger is
`len(data_buffer) >= 50`, and `train_on_batch` itself refuses batches
under 10; nothing fires at 10. -/
theorem buffer_threshold_cex :
    (process_stream (streamInit : StreamState ℕ)
        (List.replicate 9 [0])).trainRuns = 0 ∧
    (process_stream (streamInit : StreamState ℕ)
        (List.replicate 10 [0])).trainRuns = 0 ∧
    (process_stream (streamInit : StreamState ℕ)
        (List.replicate 10 [0])).trainRuns ≠ 1 := by
  refine ⟨by decide, by decide, by decide⟩

/-- Relabelling the buffered examples of a stream state. -/
def mapStream {E F : Type} (f : E → F) (s : StreamState E) : StreamState F :=
  ⟨s.data_buffer.map f, s.trainRuns⟩

theorem process_stream_step_map {E F : Type} (f : E → F) (s : StreamState E)
    (l : List E) :
    process_stream_step (mapStream f s) (l.map f) =
      mapStream f (process_stream_step s l) := by
  simp only [process_stream_step, mapStream, lastN, ← List.map_take,
    ← List.map_append, List.length_map, List.length_drop]
  split_ifs <;> simp [List.map_drop]

theorem process_stream_map {E F : Type} (f : E → F) (s : StreamState E)
    (lines : List (List E)) :
    process_stream (mapStream f s) (lines.map (List.map f)) =
      mapStream f (process_stream s lines) := by
  induction lines generalizing s with
  | nil => rfl
  | cons l rest ih =>
    simp only [process_stream, List.map_cons, List.foldl_cons] at *
    rw [process_stream_step_map, ih]

theorem map_singleton_lines_to_unit {E : Type} (l : List E) :
    (l.map (fun e => [e])).map (List.map (fun _ => ())) =
      List.replicate l.length [()] := by
  induction l with
  | nil => rfl
  | cons a t ih => simp [ih, List.replicate_succ]

theorem trainRuns_via_unit {E : Type} (l : List E) :
    (process_stream (streamInit : StreamState E)
        (l.map (fun e => [e]))).trainRuns =
      (process_stream (streamInit : StreamState Unit)
        (List.replicate l.length [()])).trainRuns := by
  have h := process_stream_map (fun _ : E => ()) streamInit (l.map (fun e => [e]))
  have h0 : mapStream (fun _ : E => ()) streamInit =
      (streamInit : StreamState Unit) := rfl
  rw [h0, map_singleton_lines_to_unit] at h
  calc (process_stream (streamInit : StreamState E)
          (l.map (fun e => [e]))).trainRuns
      = (mapStream (fun _ : E => ())
          (process_stream streamInit (l.map (fun e => [e])))).trainRuns := rfl
    _ = (process_stream (streamInit : StreamState Unit)
          (List.replicate l.length [()])).trainRuns := by rw [h]

theorem buffer_len_via_unit {E : Type} (l : List E) :
    (process_stream (streamInit : StreamState E)
        (l.map (fun e => [e]))).data_buffer.length =
      (process_stream (streamInit : StreamState Unit)
        (List.replicate l.length [()])).data_buffer.length := by
  have h := process_stream_map (fun _ : E => ()) streamInit (l.map (fun e => [e]))
  have h0 : mapStream (fun _ : E => ()) streamInit =
      (streamInit : StreamState Unit) := rfl
  rw [h0, map_singleton_lines_to_unit] at h
  calc (process_stream (streamInit : StreamState E)
          (l.map (fun e => [e]))).data_buffer.length
      = (mapStream (fun _ : E => ())
          (process_stream streamInit (l.map (fun e => [e])))).data_buffer.length := by
        simp [mapStream]
    _ = (process_stream (streamInit : StreamState Unit)
          (List.replicate l.length [()])).data_buffer.length := by rw [h]

set_option maxRecDepth 8000 in
/-- C9, amended: appending examples one at a time from an empty buffer,
training fires at the 50th example, not the 10th: zero training runs over
the first 49 appends, exactly one after the 50th (the `>= 50` buffer
trigger fires and `train_on_batch` gets 50 ≥ 10 examples); afterwards the
buffer holds at most the trailing 100 examples. -/
theorem buffer_trains_at_fiftieth {E : Type} (es : List E)
    (h : es.length = 50) :
    (process_stream (streamInit : StreamState E)
        ((es.take 49).map (fun e => [e]))).trainRuns = 0 ∧
    (process_stream (streamInit : StreamState E)
        (es.map (fun e => [e]))).trainRuns = 1 ∧
    (process_stream (streamInit : StreamState E)
        (es.map (fun e => [e]))).data_buffer.length ≤ 100 := by
  have h49 : (es.take 49).length = 49 := by
    rw [List.length_take, h]
    decide
  refine ⟨?_, ?_, ?_⟩
  · rw [trainRuns_via_unit, h49]
    decide
  · rw [trainRuns_via_unit, h]
    decide
  · rw [buffer_len_via_unit, h]
    decide

/-- Witness for `buffer_trains_at_fiftieth`: fifty concrete examples. -/
theorem buffer_trains_at_fiftieth_witness :
    (process_stream (streamInit : StreamState ℕ)
        (((List.replicate 50 0).take 49).map (fun e => [e]))).trainRuns = 0 ∧
    (process_stream (streamInit : StreamState ℕ)
        ((List.replicate 50 0).map (fun e => [e]))).trainRuns = 1 ∧
    (process_stream (streamInit : StreamState ℕ)
        ((List.replicate 50 0).map (fun e => [e]))).data_buffer.length ≤ 100 :=
  buffer_trains_at_fiftieth (List.replicate 50 0) (by decide)
